import Mathlib

/-! DownloadX: the video clipper server (`server/main.go`)

A shallow embedding of the HTTP handler `Videoclipper` and of the `/download/`
route of `main`, together with the library string functions they call.

Modelling conventions.

* Go strings are modelled by Lean strings (sequences of characters). Every string
  that is searched or sliced here is either a literal or a field decoded from
  JSON, hence valid UTF-8, in which an occurrence of a pattern starts at a byte
  where a character starts. Indices are byte offsets, as in Go: a character
  counts for the length of its UTF-8 encoding.
* The handler is a function of the request and of a `World` that answers every
  question the handler asks its environment: the environment variables, the
  clock, the outcome of `os.MkdirAll` and the outcome of running a command.
* The result of the handler records the response (status and body), the external
  commands that were run, in order, and the diagnostic lines that carry an error
  or the output of a tool. Progress lines, which are constant or only echo the
  request and the derived paths, are not recorded.
-/

namespace DownloadX

/-! ## Library functions -/

/-- Insertion of `new` at rune boundaries: the behaviour of `strings.Replace` for an
empty `old`, after the first insertion at the front. -/
def insertAux (new : List Char) : Nat → List Char → List Char
  | 0, s => s
  | _ + 1, [] => []
  | k + 1, c :: cs => c :: (new ++ insertAux new k cs)

/-- The replacement loop of `strings.Replace` for a non-empty `old`: `k` is the number of
replacements still allowed, `skip` the number of characters of the occurrence just
replaced that are still to be passed over. -/
def replaceAux (old new : List Char) : Nat → Nat → List Char → List Char
  | _, _, [] => []
  | k, skip + 1, _ :: cs => replaceAux old new k skip cs
  | 0, 0, c :: cs => c :: cs
  | k + 1, 0, c :: cs =>
    if old.isPrefixOf (c :: cs) then new ++ replaceAux old new k (old.length - 1) cs
    else c :: replaceAux old new (k + 1) 0 cs

/-- Go `strings.Replace(s, old, new, n)`: the first `n` non-overlapping occurrences of
`old` in `s` are replaced by `new`; a negative `n` puts no limit on the number. -/
def Replace (s old new : String) (n : Int) : String :=
  if old = new ∨ n = 0 then s
  else
    let k : Nat := if n < 0 then s.length + 1 else n.toNat
    if old.data = [] then ⟨new.data ++ insertAux new.data (k - 1) s.data⟩
    else ⟨replaceAux old.data new.data k 0 s.data⟩

/-- Go `strings.TrimPrefix(s, prefix)`: `s` without the leading `prefix`, or `s` itself
when it does not start with `prefix`. -/
def TrimPrefix (s pre : String) : String :=
  if pre.data.isPrefixOf s.data then ⟨s.data.drop pre.data.length⟩ else s

/-- Number of bytes of the UTF-8 encoding of a list of characters, the Go `len`. -/
def byteLen : List Char → Nat
  | [] => 0
  | c :: cs => c.utf8Size + byteLen cs

/-- Byte offset of the last occurrence of `sub` in a list of characters, or `-1`. -/
def lastIndexList (sub : List Char) : List Char → Int
  | [] => if sub = [] then 0 else -1
  | c :: cs =>
    let r := lastIndexList sub cs
    if 0 ≤ r then r + c.utf8Size else if sub.isPrefixOf (c :: cs) then 0 else -1

/-- Go `strings.LastIndex(s, substr)`: the byte offset of the last occurrence of `substr`
in `s`, or `-1` when there is none. -/
def LastIndex (s substr : String) : Int := lastIndexList substr.data s.data

/-- The characters left after the first `k` bytes; `none` when there are fewer than `k`
bytes or when byte `k` falls inside a character. -/
def dropBytes : List Char → Nat → Option (List Char)
  | [], k => if k = 0 then some [] else none
  | c :: cs, k =>
    if k = 0 then some (c :: cs)
    else if c.utf8Size ≤ k then dropBytes cs (k - c.utf8Size) else none

/-- The Go slice expression `s[i:]` for a byte offset `i`. The result is `none` when Go
panics, which is when `i` is negative or exceeds the length, and also when the cut falls
inside a character, where the bytes that Go returns are not a valid string. -/
def sliceFrom (s : String) (i : Int) : Option String :=
  if i < 0 then none else (dropBytes s.data i.toNat).map String.mk

/-- What follows the first `://` in a list of characters; empty when there is none. -/
def afterSchemeMark : List Char → List Char
  | [] => []
  | c :: cs =>
    if [':', '/', '/'].isPrefixOf (c :: cs) then cs.drop 2 else afterSchemeMark cs

/-- The path component of an absolute URL `scheme://authority/path?query#fragment`: it
starts at the first slash after the authority and stops before the query or fragment. It
is the path a client requests when it follows the URL, for a path without percent
escapes. -/
def urlPath (u : String) : String :=
  ⟨((afterSchemeMark u.data).dropWhile
      (fun c => c != '/' && c != '?' && c != '#')).takeWhile
        (fun c => c != '?' && c != '#')⟩

/-- The verb `%d` of `fmt.Sprintf` on a signed integer: its decimal representation, with
a leading minus sign when negative. -/
def formatInt : Int → String
  | Int.ofNat m => Nat.repr m
  | Int.negSucc m => "-" ++ Nat.repr (m + 1)

/-- The number written by a list of decimal digits, most significant digit first. -/
def decimalValue (l : List Char) : Nat :=
  l.foldl (fun a c => 10 * a + (c.toNat - 48)) 0

/-! ## Data model -/

/-- The struct `RequestBody`. A field missing from the JSON object is left at its zero
value, the empty string. -/
structure RequestBody where
  TweetURL : String
  Start : String
  End : String
  deriving DecidableEq, Repr

/-- The command built by `exec.Command(name, arg...)`: the program and the discrete list
of arguments that follow it. -/
structure Cmd where
  name : String
  args : List String
  deriving DecidableEq, Repr

/-- The pair returned by `(*exec.Cmd).CombinedOutput`: the combined standard output and
standard error, and the error (`none` for `nil`). -/
structure ToolResult where
  out : String
  err : Option String
  deriving DecidableEq, Repr

/-- A reading of `time.Now()`: whole seconds since the Unix epoch and the nanoseconds
within that second. -/
structure Time where
  sec : Int
  nsec : Nat
  deriving DecidableEq, Repr

/-- Go `Time.Unix`: the number of seconds elapsed since the Unix epoch. -/
def Time.Unix (t : Time) : Int := t.sec

/-- Chronological order of two clock readings. -/
def Time.le (a b : Time) : Prop := a.sec < b.sec ∨ (a.sec = b.sec ∧ a.nsec ≤ b.nsec)

/-- Strict chronological order of two clock readings. -/
def Time.lt (a b : Time) : Prop := a.sec < b.sec ∨ (a.sec = b.sec ∧ a.nsec < b.nsec)

instance (a b : Time) : Decidable (Time.le a b) := by unfold Time.le; infer_instance

instance (a b : Time) : Decidable (Time.lt a b) := by unfold Time.lt; infer_instance

/-- Everything the handler obtains from its environment during one invocation. -/
structure World where
  /-- The function `os.Getenv`; an unset variable reads as the empty string. -/
  Getenv : String → String
  /-- The reading returned by `time.Now()` in this invocation. -/
  Now : Time
  /-- The error returned by `os.MkdirAll(path, os.ModePerm)`, `none` for `nil`. -/
  MkdirAll : String → Option String
  /-- The outcome of running a command with `CombinedOutput`. -/
  CombinedOutput : Cmd → ToolResult

/-- The part of `*http.Request` the handler reads: the method, and the outcome of
`json.NewDecoder(r.Body).Decode(&body)`, either an error or the decoded body. -/
structure Request where
  Method : String
  Body : Except String RequestBody

/-- What is written to the response body. -/
inductive Body where
  /-- Nothing is written. -/
  | empty
  /-- The plain text line written by `http.Error`. -/
  | text (msg : String)
  /-- The value of the key `downloadUrl` in the JSON object encoded on success. -/
  | downloadUrl (link : String)
  deriving DecidableEq, Repr

/-- The observable result of one invocation of a handler. -/
structure Result where
  status : Nat
  body : Body
  invocations : List Cmd
  log : List String
  deriving DecidableEq, Repr

/-- The constant `http.StatusOK`. -/
def StatusOK : Nat := 200

/-- The constant `http.StatusBadRequest`. -/
def StatusBadRequest : Nat := 400

/-- The constant `http.StatusInternalServerError`. -/
def StatusInternalServerError : Nat := 500

/-! ## The handlers -/

/-- The value of `baseURL` in `Videoclipper` (lines 83 to 89). -/
def baseURL (w : World) : String :=
  if w.Getenv "BASE_URL" = "" then "http://109.199.102.132:9000" else w.Getenv "BASE_URL"

/-- The value of `videoFile` (line 143). -/
def videoFile (id : Int) : String := "download/" ++ formatInt id ++ ".mp4"

/-- The value of `clippedFile` (line 144). -/
def clippedFile (id : Int) : String := "download/clipped_" ++ formatInt id ++ ".mp4"

/-- The command `cmd1` (line 150). -/
def cmd1 (videoFile tweetUrl : String) : Cmd :=
  ⟨"yt-dlp", ["-o", videoFile, tweetUrl]⟩

/-- The command `cmd2` (lines 161 to 179). -/
def cmd2 (start end_ videoFile clippedFile : String) : Cmd :=
  if start = "" ∧ end_ = "" then
    ⟨"ffmpeg", ["-i", videoFile, "-c", "copy", clippedFile]⟩
  else if end_ = "" then
    ⟨"ffmpeg", ["-i", videoFile, "-ss", start, "-c", "copy", clippedFile]⟩
  else if start = "" then
    ⟨"ffmpeg", ["-i", videoFile, "-to", end_, "-c", "copy", clippedFile]⟩
  else
    ⟨"ffmpeg", ["-i", videoFile, "-ss", start, "-to", end_, "-c", "copy", clippedFile]⟩

/-- The handler `Videoclipper` (lines 78 to 201). A handler that returns without writing
a status answers `200` with an empty body, which is the `OPTIONS` case. -/
def Videoclipper (w : World) (r : Request) : Result :=
  if r.Method = "OPTIONS" then ⟨StatusOK, Body.empty, [], []⟩
  else if r.Method ≠ "POST" then
    ⟨StatusBadRequest, Body.text "Only POST request supported", [], []⟩
  else
    match r.Body with
    | Except.error e =>
      ⟨StatusBadRequest, Body.text "error decoding input", [],
        ["❌ Error decoding input: " ++ e]⟩
    | Except.ok body =>
      let tweetUrl := Replace body.TweetURL "x.com" "twitter.com" 1
      let start := body.Start
      let end_ := body.End
      if tweetUrl = "" then ⟨StatusBadRequest, Body.text "Missing required fields", [], []⟩
      else
        match w.MkdirAll "download" with
        | some err =>
          ⟨StatusInternalServerError, Body.text "Failed to create download directory", [],
            ["❌ Failed to create download directory: " ++ err]⟩
        | none =>
          let id := w.Now.Unix
          let c1 := cmd1 (videoFile id) tweetUrl
          let r1 := w.CombinedOutput c1
          match r1.err with
          | some err1 =>
            ⟨StatusInternalServerError, Body.text "Error downloading the video", [c1],
              ["❌ yt-dlp failed: " ++ err1 ++ "\nOutput: " ++ r1.out]⟩
          | none =>
            let c2 := cmd2 start end_ (videoFile id) (clippedFile id)
            let r2 := w.CombinedOutput c2
            match r2.err with
            | some err2 =>
              ⟨StatusInternalServerError, Body.text "Error downloading the video", [c1, c2],
                ["📥 yt-dlp output: " ++ r1.out,
                 "❌ ffmpeg failed: " ++ err2 ++ "\nOutput: " ++ r2.out]⟩
            | none =>
              let link := baseURL w ++ "/" ++ clippedFile id
              ⟨StatusOK, Body.downloadUrl link, [c1, c2],
                ["📥 yt-dlp output: " ++ r1.out, "✂️  ffmpeg output: " ++ r2.out]⟩

/-- What the `/download/` route computes from the request path before serving. -/
structure Download where
  filePath : String
  contentDisposition : String
  deriving DecidableEq, Repr

/-- The handler of the `/download/` route (lines 55 to 62), up to the call of
`http.ServeFile`: the file that will be served and the `Content-Disposition` header;
`none` if the slice expression were to fail. -/
def downloadHandler (path : String) : Option Download :=
  let filePath := "download" ++ TrimPrefix path "/download"
  (sliceFrom filePath (LastIndex filePath "/" + 1)).map
    (fun name => ⟨filePath, "attachment; filename=" ++ name⟩)

/-! ## Sample inputs -/

/-- A clock reading used in the examples. -/
def sampleTime : Time := ⟨1700000000, 0⟩

/-- A world with no environment variable set, the clock at `now`, the given outcome of
`os.MkdirAll`, and the given outcomes of the fetch tool and of the trim tool. -/
def sampleWorld (now : Time) (mkdir : Option String) (fetch trim : ToolResult) : World where
  Getenv := fun _ => ""
  Now := now
  MkdirAll := fun _ => mkdir
  CombinedOutput := fun c => if c.name = "yt-dlp" then fetch else trim

/-- A world in which `BASE_URL` is set to `base`, the clock is at `sampleTime` and every
tool succeeds. -/
def sampleWorldWithBase (base : String) : World where
  Getenv := fun k => if k = "BASE_URL" then base else ""
  Now := sampleTime
  MkdirAll := fun _ => none
  CombinedOutput := fun _ => ⟨"done", none⟩

/-- A `POST` request whose body decodes to the given three fields. -/
def sampleRequest (tweetUrl start end_ : String) : Request :=
  ⟨"POST", Except.ok ⟨tweetUrl, start, end_⟩⟩

/-- A clock reading half a second after `sampleTime`. -/
def sampleLater : Time := ⟨1700000000, 500000000⟩

/-- A successful run of a tool. -/
def toolOk : ToolResult := ⟨"done", none⟩

/-- A failed run of a tool whose output names a path of the server. -/
def toolFailedVerbose : ToolResult :=
  ⟨"ERROR: unable to write /srv/app/download/1700000000.mp4", some "exit status 1"⟩

/-- A failed run of a tool. -/
def toolFailed : ToolResult := ⟨"ERROR: no video", some "exit status 1"⟩

/-! ## Lemmas on the library functions -/

theorem replaceAux_zero (old new : List Char) (skip : Nat) (l : List Char) :
    replaceAux old new 0 skip l = l.drop skip := by
  induction l generalizing skip with
  | nil => cases skip <;> simp [replaceAux]
  | cons c cs ih => cases skip <;> simp [replaceAux, ih]

theorem Replace_xcom (s : String) :
    Replace s "x.com" "twitter.com" 1 = ⟨replaceAux "x.com".data "twitter.com".data 1 0 s.data⟩ := by
  have h1 : ¬ (("x.com" : String) = "twitter.com" ∨ (1 : Int) = 0) := by decide
  have h2 : ¬ ((1 : Int) < 0) := by decide
  have h3 : ¬ (("x.com" : String).data = []) := by decide
  simp only [Replace, if_neg h1, if_neg h2, if_neg h3]
  rfl

theorem replaceAux_one_eq_nil (old new l : List Char) (hnew : new ≠ []) :
    replaceAux old new 1 0 l = [] ↔ l = [] := by
  cases l with
  | nil => simp [replaceAux]
  | cons c cs =>
    simp only [replaceAux]
    split <;> simp [hnew]

theorem Replace_xcom_eq_empty (s : String) :
    Replace s "x.com" "twitter.com" 1 = "" ↔ s = "" := by
  rw [Replace_xcom]
  constructor
  · intro h
    have h2 := congrArg String.data h
    simp only at h2
    have h3 := (replaceAux_one_eq_nil _ _ _ (by decide)).1 h2
    exact String.ext h3
  · intro h
    subst h
    rfl

theorem replaceAux_cons (old new : List Char) (k : Nat) (c : Char) (cs : List Char) :
    replaceAux old new (k + 1) 0 (c :: cs) =
      if old.isPrefixOf (c :: cs) then new ++ replaceAux old new k (old.length - 1) cs
      else c :: replaceAux old new (k + 1) 0 cs := by
  rw [replaceAux]

theorem replaceAux_first (old new : List Char) (hold : old ≠ []) (p s : List Char)
    (hfirst : ∀ p' s', p ++ old ++ s = p' ++ old ++ s' → p.length ≤ p'.length) :
    replaceAux old new 1 0 (p ++ old ++ s) = p ++ new ++ s := by
  induction p with
  | nil =>
    cases old with
    | nil => exact absurd rfl hold
    | cons a old' =>
      have hp : (a :: old').isPrefixOf (a :: (old' ++ s)) = true := by
        rw [List.isPrefixOf_iff_prefix]
        exact ⟨s, rfl⟩
      rw [List.nil_append, List.cons_append, replaceAux_cons, if_pos hp, replaceAux_zero,
        List.length_cons, Nat.add_sub_cancel, List.drop_left]
      rfl
  | cons c p ih =>
    have hnp : old.isPrefixOf (c :: (p ++ old ++ s)) = false := by
      cases hpre : old.isPrefixOf (c :: (p ++ old ++ s)) with
      | false => rfl
      | true =>
        rw [List.isPrefixOf_iff_prefix] at hpre
        obtain ⟨t, ht⟩ := hpre
        have := hfirst [] t (by simpa using ht.symm)
        simp at this
    have ih2 := ih (fun p' s' h => by
      have := hfirst (c :: p') s' (by simp [h])
      simpa using this)
    rw [List.cons_append, List.cons_append, replaceAux_cons, hnp, ih2]
    simp

theorem replaceAux_absent (old new : List Char) (k : Nat) (l : List Char)
    (h : ¬ old <:+: l) : replaceAux old new k 0 l = l := by
  induction l with
  | nil => simp [replaceAux]
  | cons c cs ih =>
    cases k with
    | zero => simp [replaceAux]
    | succ k =>
      have hnp : old.isPrefixOf (c :: cs) = false := by
        cases hpre : old.isPrefixOf (c :: cs) with
        | false => rfl
        | true =>
          rw [List.isPrefixOf_iff_prefix] at hpre
          exact absurd hpre.isInfix h
      have ih2 := ih (fun hi => h (hi.trans (List.suffix_cons c cs).isInfix))
      rw [replaceAux_cons, hnp, ih2]
      simp

theorem Replace_xcom_first (p s : String)
    (hfirst : ∀ p' s' : String, p ++ "x.com" ++ s = p' ++ "x.com" ++ s' → p.length ≤ p'.length) :
    Replace (p ++ "x.com" ++ s) "x.com" "twitter.com" 1 = p ++ "twitter.com" ++ s := by
  rw [Replace_xcom]
  apply String.ext
  simp only [String.data_append]
  apply replaceAux_first _ _ (by decide)
  intro p' s' h
  have := hfirst ⟨p'⟩ ⟨s'⟩ (by
    apply String.ext
    simpa only [String.data_append] using h)
  exact this

theorem Replace_xcom_absent (u : String) (h : ¬ ∃ p s : String, u = p ++ "x.com" ++ s) :
    Replace u "x.com" "twitter.com" 1 = u := by
  rw [Replace_xcom]
  apply String.ext
  apply replaceAux_absent
  rintro ⟨p, s, hps⟩
  apply h
  refine ⟨⟨p⟩, ⟨s⟩, ?_⟩
  apply String.ext
  simp only [String.data_append]
  exact hps.symm

theorem digitChar_isDigit (k : Nat) (hk : k < 10) : (Nat.digitChar k).isDigit = true := by
  interval_cases k <;> rfl

theorem toDigitsCore_isDigit (fuel n : Nat) (ds : List Char)
    (hds : ∀ c ∈ ds, c.isDigit = true) :
    ∀ c ∈ Nat.toDigitsCore 10 fuel n ds, c.isDigit = true := by
  induction fuel generalizing n ds with
  | zero => simpa [Nat.toDigitsCore] using hds
  | succ fuel ih =>
    have hd : ∀ c ∈ Nat.digitChar (n % 10) :: ds, c.isDigit = true := by
      intro c hc
      rcases List.mem_cons.1 hc with h | h
      · rw [h]
        exact digitChar_isDigit _ (Nat.mod_lt _ (by decide))
      · exact hds c h
    rw [Nat.toDigitsCore]
    split
    · exact hd
    · exact ih _ _ hd

theorem formatInt_chars (n : Int) :
    ∀ c ∈ (formatInt n).data, c.isDigit = true ∨ c = '-' := by
  intro c hc
  cases n with
  | ofNat m =>
    left
    exact toDigitsCore_isDigit _ _ [] (by simp) c hc
  | negSucc m =>
    have hc2 : c ∈ '-' :: Nat.toDigitsCore 10 (m + 1 + 1) (m + 1) [] := hc
    rcases List.mem_cons.1 hc2 with h | h
    · exact Or.inr h
    · exact Or.inl (toDigitsCore_isDigit _ _ [] (by simp) c h)

theorem formatInt_no_slash (n : Int) : ∀ c ∈ (formatInt n).data, c ≠ '/' := by
  intro c hc h
  subst h
  rcases formatInt_chars n _ hc with h | h
  · exact absurd h (by decide)
  · exact absurd h (by decide)

theorem digitChar_value (k : Nat) (hk : k < 10) : (Nat.digitChar k).toNat - 48 = k := by
  interval_cases k <;> rfl

theorem toDigitsCore_value (fuel n : Nat) (ds : List Char) (hf : n < fuel) :
    (Nat.toDigitsCore 10 fuel n ds).foldl (fun a c => 10 * a + (c.toNat - 48)) 0 =
      ds.foldl (fun a c => 10 * a + (c.toNat - 48)) n := by
  induction fuel generalizing n ds with
  | zero => exact absurd hf (Nat.not_lt_zero _)
  | succ fuel ih =>
    have hd := digitChar_value (n % 10) (Nat.mod_lt _ (by decide))
    rw [Nat.toDigitsCore]
    split
    · rename_i h0
      have hn : n % 10 = n := by omega
      rw [hn] at hd
      simp only [List.foldl_cons, Nat.mul_zero, Nat.zero_add, hn, hd]
    · rename_i h0
      rw [ih (n / 10) _ (by omega)]
      have hn : 10 * (n / 10) + n % 10 = n := Nat.div_add_mod n 10
      simp only [List.foldl_cons, hd, hn]

theorem decimalValue_repr (m : Nat) : decimalValue (Nat.repr m).data = m :=
  toDigitsCore_value (m + 1) m [] (Nat.lt_succ_self m)

theorem formatInt_injective (a b : Int) (h : formatInt a = formatInt b) : a = b := by
  have hdash : ∀ m k : Nat, Nat.repr m ≠ "-" ++ Nat.repr k := by
    intro m k hmk
    have hmem : '-' ∈ (Nat.repr m).data := by
      rw [hmk]
      exact List.mem_cons_self _ _
    have := toDigitsCore_isDigit (m + 1) m [] (by simp) '-' hmem
    exact absurd this (by decide)
  cases a with
  | ofNat m =>
    cases b with
    | ofNat k =>
      have := congrArg (fun s => decimalValue s.data) h
      simp only [formatInt, decimalValue_repr] at this
      rw [this]
    | negSucc k => exact absurd h (hdash _ _)
  | negSucc m =>
    cases b with
    | ofNat k => exact absurd h.symm (hdash _ _)
    | negSucc k =>
      have h2 : (Nat.repr (m + 1)).data = (Nat.repr (k + 1)).data := by
        have := congrArg String.data h
        simp only [formatInt, String.data_append] at this
        exact List.append_cancel_left this
      have := congrArg decimalValue h2
      simp only [decimalValue_repr] at this
      have hmk : m = k := by omega
      rw [hmk]

theorem formatInt_head (n : Int) :
    ∃ c t, (formatInt n).data = c :: t ∧ (c.isDigit = true ∨ c = '-') := by
  have hne : (formatInt n).data ≠ [] := by
    cases n with
    | ofNat m =>
      show Nat.toDigitsCore 10 (m + 1) m [] ≠ []
      rw [Nat.toDigitsCore]
      split
      · simp
      · intro h
        have h1 := congrArg List.length h
        rw [Nat.toDigitsCore_lens_eq] at h1
        simp at h1
    | negSucc m =>
      show '-' :: _ ≠ []
      simp
  cases hd : (formatInt n).data with
  | nil => exact absurd hd hne
  | cons c t =>
    exact ⟨c, t, rfl, formatInt_chars n c (by rw [hd]; exact List.mem_cons_self _ _)⟩

theorem videoFile_injective (a b : Int) (h : videoFile a = videoFile b) : a = b := by
  apply formatInt_injective
  have h2 := congrArg String.data h
  simp only [videoFile, String.data_append] at h2
  exact String.ext (List.append_cancel_left (List.append_cancel_right h2))

theorem clippedFile_injective (a b : Int) (h : clippedFile a = clippedFile b) : a = b := by
  apply formatInt_injective
  have h2 := congrArg String.data h
  simp only [clippedFile, String.data_append] at h2
  exact String.ext (List.append_cancel_left (List.append_cancel_right h2))

theorem videoFile_ne_clippedFile (a b : Int) : videoFile a ≠ clippedFile b := by
  intro h
  have h2 := congrArg String.data h
  obtain ⟨c, t, hct, hc⟩ := formatInt_head a
  have h3 : "download/".data ++ ((formatInt a).data ++ ".mp4".data) =
      "download/".data ++ ("clipped_".data ++ ((formatInt b).data ++ ".mp4".data)) := by
    simpa only [videoFile, clippedFile, String.data_append, List.append_assoc] using h2
  have h4 := List.append_cancel_left h3
  rw [hct] at h4
  have h5 : c = 'c' := (List.cons.inj h4).1
  subst h5
  rcases hc with hc | hc
  · exact absurd hc (by decide)
  · exact absurd hc (by decide)

/-- Jobs started in different seconds use four pairwise distinct files. -/
theorem distinct_seconds_distinct_files (t1 t2 : Time) (h : t1.Unix ≠ t2.Unix) :
    videoFile t1.Unix ≠ videoFile t2.Unix ∧ clippedFile t1.Unix ≠ clippedFile t2.Unix ∧
    videoFile t1.Unix ≠ clippedFile t2.Unix ∧ clippedFile t1.Unix ≠ videoFile t2.Unix :=
  ⟨fun e => h (videoFile_injective _ _ e), fun e => h (clippedFile_injective _ _ e),
    videoFile_ne_clippedFile _ _, fun e => videoFile_ne_clippedFile _ _ e.symm⟩

theorem lastIndexList_cons (sub : List Char) (c : Char) (cs : List Char) :
    lastIndexList sub (c :: cs) =
      if 0 ≤ lastIndexList sub cs then lastIndexList sub cs + c.utf8Size
      else if sub.isPrefixOf (c :: cs) then 0 else -1 := rfl

theorem lastIndexList_absent (sep : Char) (l : List Char) (h : ∀ c ∈ l, c ≠ sep) :
    lastIndexList [sep] l = -1 := by
  induction l with
  | nil => simp [lastIndexList]
  | cons c cs ih =>
    have ih2 := ih (fun d hd => h d (List.mem_cons_of_mem _ hd))
    have hc : c ≠ sep := h c (List.mem_cons_self _ _)
    have hp : [sep].isPrefixOf (c :: cs) = false := by
      simp [List.isPrefixOf, Ne.symm hc]
    simp [lastIndexList, ih2, hp]

theorem lastIndexList_last (sep : Char) (a t : List Char) (h : ∀ c ∈ t, c ≠ sep) :
    lastIndexList [sep] (a ++ sep :: t) = byteLen a := by
  induction a with
  | nil =>
    have hp : [sep].isPrefixOf (sep :: t) = true := by simp [List.isPrefixOf]
    simp [lastIndexList, lastIndexList_absent sep t h, hp, byteLen]
  | cons x a ih =>
    have h0 : (0 : Int) ≤ (byteLen a : Int) := Int.natCast_nonneg _
    rw [List.cons_append, lastIndexList_cons, ih, if_pos h0, byteLen]
    push_cast
    ring

theorem lastIndexList_cases (sep : Char) (l : List Char) :
    lastIndexList [sep] l = -1 ∨
      ∃ a t, l = a ++ sep :: t ∧ lastIndexList [sep] l = byteLen a := by
  induction l with
  | nil => left; simp [lastIndexList]
  | cons c cs ih =>
    rcases ih with h | ⟨a, t, hl, hr⟩
    · by_cases hc : c = sep
      · right
        refine ⟨[], cs, by rw [hc]; rfl, ?_⟩
        have hp : [sep].isPrefixOf (c :: cs) = true := by simp [List.isPrefixOf, hc]
        simp [lastIndexList, h, hp, byteLen]
      · left
        have hp : [sep].isPrefixOf (c :: cs) = false := by
          simp [List.isPrefixOf, Ne.symm hc]
        simp [lastIndexList, h, hp]
    · right
      refine ⟨c :: a, t, by rw [hl]; rfl, ?_⟩
      have h0 : (0 : Int) ≤ (byteLen a : Int) := Int.natCast_nonneg _
      rw [lastIndexList_cons, hr, if_pos h0, byteLen]
      push_cast
      ring

theorem byteLen_append (a b : List Char) : byteLen (a ++ b) = byteLen a + byteLen b := by
  induction a with
  | nil => simp [byteLen]
  | cons x a ih => rw [List.cons_append, byteLen, byteLen, ih, Nat.add_assoc]

theorem dropBytes_zero (l : List Char) : dropBytes l 0 = some l := by
  cases l <;> simp [dropBytes]

theorem dropBytes_append (a t : List Char) : dropBytes (a ++ t) (byteLen a) = some t := by
  induction a with
  | nil => exact dropBytes_zero t
  | cons x a ih =>
    have hpos := Char.utf8Size_pos x
    have h0 : ¬ (x.utf8Size + byteLen a = 0) := by omega
    have h1 : x.utf8Size ≤ x.utf8Size + byteLen a := Nat.le_add_right _ _
    rw [List.cons_append, byteLen, dropBytes, if_neg h0, if_pos h1, Nat.add_sub_cancel_left]
    exact ih

theorem afterSchemeMark_scheme (s rest : List Char) (h : ∀ c ∈ s, c ≠ ':') :
    afterSchemeMark (s ++ ':' :: '/' :: '/' :: rest) = rest := by
  induction s with
  | nil => simp [afterSchemeMark, List.isPrefixOf]
  | cons c s ih =>
    have hc : c ≠ ':' := h c (List.mem_cons_self _ _)
    have ih2 := ih (fun d hd => h d (List.mem_cons_of_mem _ hd))
    have hp : [':', '/', '/'].isPrefixOf (c :: (s ++ ':' :: '/' :: '/' :: rest)) = false := by
      simp [List.isPrefixOf, Ne.symm hc]
    rw [List.cons_append, afterSchemeMark, hp]
    simpa using ih2

theorem dropWhile_append_all (p : Char → Bool) (a t : List Char) (h : ∀ c ∈ a, p c = true) :
    (a ++ t).dropWhile p = t.dropWhile p := by
  induction a with
  | nil => rfl
  | cons x a ih =>
    have hx : p x = true := h x (List.mem_cons_self _ _)
    rw [List.cons_append, List.dropWhile_cons, if_pos hx]
    exact ih (fun d hd => h d (List.mem_cons_of_mem _ hd))

theorem TrimPrefix_append (pre t : String) : TrimPrefix (pre ++ t) pre = t := by
  have hp : pre.data.isPrefixOf (pre ++ t).data = true := by
    rw [List.isPrefixOf_iff_prefix, String.data_append]
    exact ⟨t.data, rfl⟩
  unfold TrimPrefix
  rw [if_pos hp]
  apply String.ext
  simp [String.data_append]

/-! ## The paths through `Videoclipper` -/

theorem Videoclipper_decodeErr (w : World) (r : Request) (e : String)
    (hm : r.Method = "POST") (hb : r.Body = Except.error e) :
    Videoclipper w r =
      ⟨StatusBadRequest, Body.text "error decoding input", [],
        ["❌ Error decoding input: " ++ e]⟩ := by
  simp [Videoclipper, hm, hb]

theorem Videoclipper_emptyUrl (w : World) (r : Request) (b : RequestBody)
    (hm : r.Method = "POST") (hb : r.Body = Except.ok b)
    (hu : Replace b.TweetURL "x.com" "twitter.com" 1 = "") :
    Videoclipper w r = ⟨StatusBadRequest, Body.text "Missing required fields", [], []⟩ := by
  simp [Videoclipper, hm, hb, hu]

theorem Videoclipper_mkdirErr (w : World) (r : Request) (b : RequestBody) (e : String)
    (hm : r.Method = "POST") (hb : r.Body = Except.ok b)
    (hu : Replace b.TweetURL "x.com" "twitter.com" 1 ≠ "")
    (hd : w.MkdirAll "download" = some e) :
    Videoclipper w r =
      ⟨StatusInternalServerError, Body.text "Failed to create download directory", [],
        ["❌ Failed to create download directory: " ++ e]⟩ := by
  simp [Videoclipper, hm, hb, hu, hd]

theorem Videoclipper_fetchErr (w : World) (r : Request) (b : RequestBody) (e : String)
    (hm : r.Method = "POST") (hb : r.Body = Except.ok b)
    (hu : Replace b.TweetURL "x.com" "twitter.com" 1 ≠ "")
    (hd : w.MkdirAll "download" = none)
    (h1 : (w.CombinedOutput (cmd1 (videoFile w.Now.Unix)
      (Replace b.TweetURL "x.com" "twitter.com" 1))).err = some e) :
    Videoclipper w r =
      ⟨StatusInternalServerError, Body.text "Error downloading the video",
        [cmd1 (videoFile w.Now.Unix) (Replace b.TweetURL "x.com" "twitter.com" 1)],
        ["❌ yt-dlp failed: " ++ e ++ "\nOutput: " ++
          (w.CombinedOutput (cmd1 (videoFile w.Now.Unix)
            (Replace b.TweetURL "x.com" "twitter.com" 1))).out]⟩ := by
  simp [Videoclipper, hm, hb, hu, hd, h1]

theorem Videoclipper_trimErr (w : World) (r : Request) (b : RequestBody) (e : String)
    (hm : r.Method = "POST") (hb : r.Body = Except.ok b)
    (hu : Replace b.TweetURL "x.com" "twitter.com" 1 ≠ "")
    (hd : w.MkdirAll "download" = none)
    (h1 : (w.CombinedOutput (cmd1 (videoFile w.Now.Unix)
      (Replace b.TweetURL "x.com" "twitter.com" 1))).err = none)
    (h2 : (w.CombinedOutput (cmd2 b.Start b.End (videoFile w.Now.Unix)
      (clippedFile w.Now.Unix))).err = some e) :
    Videoclipper w r =
      ⟨StatusInternalServerError, Body.text "Error downloading the video",
        [cmd1 (videoFile w.Now.Unix) (Replace b.TweetURL "x.com" "twitter.com" 1),
         cmd2 b.Start b.End (videoFile w.Now.Unix) (clippedFile w.Now.Unix)],
        ["📥 yt-dlp output: " ++ (w.CombinedOutput (cmd1 (videoFile w.Now.Unix)
            (Replace b.TweetURL "x.com" "twitter.com" 1))).out,
         "❌ ffmpeg failed: " ++ e ++ "\nOutput: " ++
          (w.CombinedOutput (cmd2 b.Start b.End (videoFile w.Now.Unix)
            (clippedFile w.Now.Unix))).out]⟩ := by
  simp [Videoclipper, hm, hb, hu, hd, h1, h2]

theorem Videoclipper_ok (w : World) (r : Request) (b : RequestBody)
    (hm : r.Method = "POST") (hb : r.Body = Except.ok b)
    (hu : Replace b.TweetURL "x.com" "twitter.com" 1 ≠ "")
    (hd : w.MkdirAll "download" = none)
    (h1 : (w.CombinedOutput (cmd1 (videoFile w.Now.Unix)
      (Replace b.TweetURL "x.com" "twitter.com" 1))).err = none)
    (h2 : (w.CombinedOutput (cmd2 b.Start b.End (videoFile w.Now.Unix)
      (clippedFile w.Now.Unix))).err = none) :
    Videoclipper w r =
      ⟨StatusOK, Body.downloadUrl (baseURL w ++ "/" ++ clippedFile w.Now.Unix),
        [cmd1 (videoFile w.Now.Unix) (Replace b.TweetURL "x.com" "twitter.com" 1),
         cmd2 b.Start b.End (videoFile w.Now.Unix) (clippedFile w.Now.Unix)],
        ["📥 yt-dlp output: " ++ (w.CombinedOutput (cmd1 (videoFile w.Now.Unix)
            (Replace b.TweetURL "x.com" "twitter.com" 1))).out,
         "✂️  ffmpeg output: " ++
          (w.CombinedOutput (cmd2 b.Start b.End (videoFile w.Now.Unix)
            (clippedFile w.Now.Unix))).out]⟩ := by
  simp [Videoclipper, hm, hb, hu, hd, h1, h2]

theorem Videoclipper_fetch_head (w : World) (r : Request) (b : RequestBody)
    (hm : r.Method = "POST") (hb : r.Body = Except.ok b)
    (hu : Replace b.TweetURL "x.com" "twitter.com" 1 ≠ "")
    (hd : w.MkdirAll "download" = none) :
    (Videoclipper w r).invocations.head? =
      some (cmd1 (videoFile w.Now.Unix) (Replace b.TweetURL "x.com" "twitter.com" 1)) := by
  rcases h1 : (w.CombinedOutput (cmd1 (videoFile w.Now.Unix)
      (Replace b.TweetURL "x.com" "twitter.com" 1))).err with _ | e1
  · rcases h2 : (w.CombinedOutput (cmd2 b.Start b.End (videoFile w.Now.Unix)
        (clippedFile w.Now.Unix))).err with _ | e2
    · rw [Videoclipper_ok w r b hm hb hu hd h1 h2]
      rfl
    · rw [Videoclipper_trimErr w r b e2 hm hb hu hd h1 h2]
      rfl
  · rw [Videoclipper_fetchErr w r b e1 hm hb hu hd h1]
    rfl

theorem cmd2_name (start end_ v c : String) : (cmd2 start end_ v c).name = "ffmpeg" := by
  unfold cmd2
  split_ifs <;> rfl

theorem cmd2_args (start end_ v c : String) :
    (cmd2 start end_ v c).args =
      ["-i", v] ++ (if start ≠ "" then ["-ss", start] else []) ++
        (if end_ ≠ "" then ["-to", end_] else []) ++ ["-c", "copy", c] := by
  unfold cmd2
  by_cases hs : start = "" <;> by_cases he : end_ = "" <;> simp [hs, he]

theorem cmd2_getLast (start end_ v c : String) :
    (cmd2 start end_ v c).args.getLast? = some c := by
  unfold cmd2
  split_ifs <;> rfl

theorem Videoclipper_of_status_ok (w : World) (r : Request)
    (hm : r.Method = "POST") (hs : (Videoclipper w r).status = 200) :
    ∃ b, r.Body = Except.ok b ∧
      (Videoclipper w r).body =
        Body.downloadUrl (baseURL w ++ "/" ++ clippedFile w.Now.Unix) ∧
      (Videoclipper w r).invocations =
        [cmd1 (videoFile w.Now.Unix) (Replace b.TweetURL "x.com" "twitter.com" 1),
         cmd2 b.Start b.End (videoFile w.Now.Unix) (clippedFile w.Now.Unix)] := by
  rcases hb : r.Body with e | b
  · rw [Videoclipper_decodeErr w r e hm hb] at hs
    simp [StatusBadRequest] at hs
  · by_cases hu : Replace b.TweetURL "x.com" "twitter.com" 1 = ""
    · rw [Videoclipper_emptyUrl w r b hm hb hu] at hs
      simp [StatusBadRequest] at hs
    · rcases hd : w.MkdirAll "download" with _ | e
      · rcases h1 : (w.CombinedOutput (cmd1 (videoFile w.Now.Unix)
          (Replace b.TweetURL "x.com" "twitter.com" 1))).err with _ | e1
        · rcases h2 : (w.CombinedOutput (cmd2 b.Start b.End (videoFile w.Now.Unix)
            (clippedFile w.Now.Unix))).err with _ | e2
          · rw [Videoclipper_ok w r b hm hb hu hd h1 h2]
            exact ⟨b, rfl, rfl, rfl⟩
          · rw [Videoclipper_trimErr w r b e2 hm hb hu hd h1 h2] at hs
            simp [StatusInternalServerError] at hs
        · rw [Videoclipper_fetchErr w r b e1 hm hb hu hd h1] at hs
          simp [StatusInternalServerError] at hs
      · rw [Videoclipper_mkdirErr w r b e hm hb hu hd] at hs
        simp [StatusInternalServerError] at hs

/-! ## The `/download/` route -/

/-- The slice expression of the `/download/` route never fails: the offset is zero or
the byte after a slash. -/
theorem downloadHandler_total (path : String) :
    ∃ name, downloadHandler path =
      some ⟨"download" ++ TrimPrefix path "/download", "attachment; filename=" ++ name⟩ := by
  have key : ∀ l : List Char, ∃ t, dropBytes l (lastIndexList ['/'] l + 1).toNat = some t ∧
      ¬ (lastIndexList ['/'] l + 1 < 0) := by
    intro l
    rcases lastIndexList_cases '/' l with h | ⟨a, t, hl, hr⟩
    · rw [h]
      exact ⟨l, dropBytes_zero l, by decide⟩
    · refine ⟨t, ?_, ?_⟩
      · rw [hr]
        have h1 : ((byteLen a : Int) + 1).toNat = byteLen (a ++ ['/']) := by
          rw [byteLen_append]
          have h1 : byteLen ['/'] = 1 := by decide
          omega
        have h2 : l = (a ++ ['/']) ++ t := by rw [hl]; simp
        rw [h1, h2]
        exact dropBytes_append _ _
      · rw [hr]
        omega
  obtain ⟨t, ht, hneg⟩ := key ("download" ++ TrimPrefix path "/download").data
  refine ⟨⟨t⟩, ?_⟩
  unfold downloadHandler sliceFrom LastIndex
  simp only [if_neg hneg]
  show Option.map _ (Option.map String.mk
    (dropBytes ("download" ++ TrimPrefix path "/download").data
      (lastIndexList ['/'] ("download" ++ TrimPrefix path "/download").data + 1).toNat)) = _
  rw [ht]
  rfl

theorem clippedFile_data (n : Int) :
    (clippedFile n).data =
      "download".data ++ '/' :: ("clipped_".data ++ (formatInt n).data ++ ".mp4".data) := by
  unfold clippedFile
  simp only [String.data_append]
  simp

theorem clipped_name_no_slash (n : Int) :
    ∀ c ∈ "clipped_".data ++ (formatInt n).data ++ ".mp4".data, c ≠ '/' := by
  intro c hc
  rcases List.mem_append.1 hc with h | h
  · rcases List.mem_append.1 h with h | h
    · intro hc2
      subst hc2
      exact absurd h (by decide)
    · exact formatInt_no_slash n c h
  · intro hc2
    subst hc2
    exact absurd h (by decide)

/-- The `/download/` route applied to a slash followed by the clipped file path serves
the clipped file under its base name. -/
theorem downloadHandler_clipped (n : Int) :
    downloadHandler ("/" ++ clippedFile n) =
      some ⟨clippedFile n, "attachment; filename=clipped_" ++ formatInt n ++ ".mp4"⟩ := by
  have hpath : "/" ++ clippedFile n = "/download" ++ ("/clipped_" ++ formatInt n ++ ".mp4") := by
    unfold clippedFile
    simp only [String.append_assoc]
    rfl
  have htrim : TrimPrefix ("/" ++ clippedFile n) "/download" =
      "/clipped_" ++ formatInt n ++ ".mp4" := by
    rw [hpath, TrimPrefix_append]
  have hfile : "download" ++ ("/clipped_" ++ formatInt n ++ ".mp4") = clippedFile n := by
    unfold clippedFile
    simp only [String.append_assoc]
    rfl
  have hidx : LastIndex (clippedFile n) "/" = 8 := by
    unfold LastIndex
    rw [clippedFile_data]
    exact lastIndexList_last '/' _ _ (clipped_name_no_slash n)
  have hs : sliceFrom (clippedFile n) (8 + 1) = some ("clipped_" ++ formatInt n ++ ".mp4") := by
    have hd : (clippedFile n).data =
        "download/".data ++ ("clipped_" ++ formatInt n ++ ".mp4").data := by
      rw [clippedFile_data]
      simp [String.data_append]
    have h9 : ((8 : Int) + 1).toNat = byteLen "download/".data := by decide
    have hneg : ¬ ((8 : Int) + 1 < 0) := by decide
    unfold sliceFrom
    rw [if_neg hneg, h9, hd, dropBytes_append]
    rfl
  unfold downloadHandler
  simp only [htrim, hfile, hidx, hs, Option.map_some']
  congr 2

/-- The path component of a link made of a base URL `scheme://authority` without a path,
a slash and the clipped file path. -/
theorem urlPath_link (scheme authority : String) (n : Int)
    (hsch : ∀ c ∈ scheme.data, c ≠ ':' ∧ c ≠ '/' ∧ c ≠ '?' ∧ c ≠ '#')
    (hauth : ∀ c ∈ authority.data, c ≠ '/' ∧ c ≠ '?' ∧ c ≠ '#') :
    urlPath (scheme ++ "://" ++ authority ++ "/" ++ clippedFile n) = "/" ++ clippedFile n := by
  have hdata : (scheme ++ "://" ++ authority ++ "/" ++ clippedFile n).data =
      scheme.data ++ ':' :: '/' :: '/' :: (authority.data ++ ("/" ++ clippedFile n).data) := by
    simp only [String.data_append]
    simp
  have hdrop : (authority.data ++ ("/" ++ clippedFile n).data).dropWhile
      (fun c => c != '/' && c != '?' && c != '#') = ("/" ++ clippedFile n).data := by
    rw [dropWhile_append_all]
    · rfl
    · intro c hc
      obtain ⟨h1, h2, h3⟩ := hauth c hc
      simp [h1, h2, h3]
  have htake : ("/" ++ clippedFile n).data.takeWhile (fun c => c != '?' && c != '#') =
      ("/" ++ clippedFile n).data := by
    rw [List.takeWhile_eq_self_iff]
    intro c hc
    have hc2 : c ∈ "/download/clipped_".data ++ ((formatInt n).data ++ ".mp4".data) := by
      have : ("/" ++ clippedFile n).data =
          "/download/clipped_".data ++ ((formatInt n).data ++ ".mp4".data) := by
        unfold clippedFile
        simp only [String.data_append]
        simp
      rw [this] at hc
      exact hc
    have hne : c ≠ '?' ∧ c ≠ '#' := by
      rcases List.mem_append.1 hc2 with h | h
      · constructor <;> (intro e; subst e; exact absurd h (by decide))
      · rcases List.mem_append.1 h with h | h
        · rcases formatInt_chars n c h with hd | hd
          · constructor <;> (intro e; subst e; exact absurd hd (by decide))
          · constructor <;> (intro e; subst e; exact absurd hd (by decide))
        · constructor <;> (intro e; subst e; exact absurd h (by decide))
    simp [hne.1, hne.2]
  apply String.ext
  unfold urlPath
  simp only
  rw [hdata, afterSchemeMark_scheme _ _ (fun c hc => (hsch c hc).1), hdrop, htake]

/-! ## The claims -/

/-- C1: for a `POST` request the status is 200 exactly when the body decodes, the
normalized tweet URL is non-empty, the download directory is created and both tools exit
without error; it is 400 exactly when the body fails to decode or the tweet URL is empty;
it is 500 exactly in the remaining cases, a directory, fetch or trim failure; and no other
status is produced. -/
theorem Videoclipper_status (w : World) (r : Request) (hm : r.Method = "POST") :
    ((Videoclipper w r).status = 200 ↔
      ∃ b, r.Body = Except.ok b ∧ Replace b.TweetURL "x.com" "twitter.com" 1 ≠ "" ∧
        w.MkdirAll "download" = none ∧
        (w.CombinedOutput (cmd1 (videoFile w.Now.Unix)
          (Replace b.TweetURL "x.com" "twitter.com" 1))).err = none ∧
        (w.CombinedOutput (cmd2 b.Start b.End (videoFile w.Now.Unix)
          (clippedFile w.Now.Unix))).err = none) ∧
    ((Videoclipper w r).status = 400 ↔
      (∃ e, r.Body = Except.error e) ∨ ∃ b, r.Body = Except.ok b ∧ b.TweetURL = "") ∧
    ((Videoclipper w r).status = 500 ↔
      ∃ b, r.Body = Except.ok b ∧ b.TweetURL ≠ "" ∧
        (w.MkdirAll "download" ≠ none ∨
         (w.CombinedOutput (cmd1 (videoFile w.Now.Unix)
          (Replace b.TweetURL "x.com" "twitter.com" 1))).err ≠ none ∨
         (w.CombinedOutput (cmd2 b.Start b.End (videoFile w.Now.Unix)
          (clippedFile w.Now.Unix))).err ≠ none)) ∧
    ((Videoclipper w r).status = 200 ∨ (Videoclipper w r).status = 400 ∨
      (Videoclipper w r).status = 500) := by
  rcases hb : r.Body with e | b
  · rw [Videoclipper_decodeErr w r e hm hb]
    simp [StatusBadRequest]
  · by_cases hu : Replace b.TweetURL "x.com" "twitter.com" 1 = ""
    · have hu2 : b.TweetURL = "" := (Replace_xcom_eq_empty _).1 hu
      rw [Videoclipper_emptyUrl w r b hm hb hu]
      rw [hu2] at hu
      simp [StatusBadRequest, hu2, hu]
    · have hu2 : b.TweetURL ≠ "" := fun h => hu ((Replace_xcom_eq_empty _).2 h)
      rcases hd : w.MkdirAll "download" with _ | e
      · rcases h1 : (w.CombinedOutput (cmd1 (videoFile w.Now.Unix)
          (Replace b.TweetURL "x.com" "twitter.com" 1))).err with _ | e1
        · rcases h2 : (w.CombinedOutput (cmd2 b.Start b.End (videoFile w.Now.Unix)
            (clippedFile w.Now.Unix))).err with _ | e2
          · rw [Videoclipper_ok w r b hm hb hu hd h1 h2]
            simp [StatusOK, hu2, hu, h1, h2]
          · rw [Videoclipper_trimErr w r b e2 hm hb hu hd h1 h2]
            simp [StatusInternalServerError, hu2, hu, h1, h2]
        · rw [Videoclipper_fetchErr w r b e1 hm hb hu hd h1]
          simp [StatusInternalServerError, hu2, hu, h1]
      · rw [Videoclipper_mkdirErr w r b e hm hb hu hd]
        simp [StatusInternalServerError, hu2, hu]

/-- Witness of C1: a `POST` request for which everything succeeds is answered 200. -/
theorem Videoclipper_status_witness :
    (sampleRequest "https://x.com/a/status/5" "00:00:05" "00:00:10").Method = "POST" ∧
    (Videoclipper (sampleWorld sampleTime none toolOk toolOk)
      (sampleRequest "https://x.com/a/status/5" "00:00:05" "00:00:10")).status = 200 :=
  ⟨rfl, (Videoclipper_status (sampleWorld sampleTime none toolOk toolOk)
    (sampleRequest "https://x.com/a/status/5" "00:00:05" "00:00:10") rfl).1.2
      ⟨⟨"https://x.com/a/status/5", "00:00:05", "00:00:10"⟩, rfl, by decide, rfl,
        by decide, by decide⟩⟩

/-- C2: when the fetch tool run by a `POST` request returns an error, the answer is 500,
the external invocations are exactly that one fetch call, so the trim tool is never run,
and the response carries no download link. -/
theorem fetch_error_stops (w : World) (r : Request) (c : Cmd)
    (hm : r.Method = "POST")
    (hc : c ∈ (Videoclipper w r).invocations) (hn : c.name = "yt-dlp")
    (he : (w.CombinedOutput c).err ≠ none) :
    (Videoclipper w r).status = 500 ∧
    (Videoclipper w r).invocations = [c] ∧
    (∀ d ∈ (Videoclipper w r).invocations, d.name ≠ "ffmpeg") ∧
    ∀ link, (Videoclipper w r).body ≠ Body.downloadUrl link := by
  have hne : ("yt-dlp" : String) ≠ "ffmpeg" := by decide
  rcases hb : r.Body with e | b
  · rw [Videoclipper_decodeErr w r e hm hb] at hc
    simp at hc
  · by_cases hu : Replace b.TweetURL "x.com" "twitter.com" 1 = ""
    · rw [Videoclipper_emptyUrl w r b hm hb hu] at hc
      simp at hc
    · rcases hd : w.MkdirAll "download" with _ | e
      · rcases h1 : (w.CombinedOutput (cmd1 (videoFile w.Now.Unix)
          (Replace b.TweetURL "x.com" "twitter.com" 1))).err with _ | e1
        · exfalso
          have hc2 : c = cmd1 (videoFile w.Now.Unix)
                (Replace b.TweetURL "x.com" "twitter.com" 1) ∨
              c = cmd2 b.Start b.End (videoFile w.Now.Unix) (clippedFile w.Now.Unix) := by
            rcases h2 : (w.CombinedOutput (cmd2 b.Start b.End (videoFile w.Now.Unix)
              (clippedFile w.Now.Unix))).err with _ | e2
            · rw [Videoclipper_ok w r b hm hb hu hd h1 h2] at hc
              simpa using hc
            · rw [Videoclipper_trimErr w r b e2 hm hb hu hd h1 h2] at hc
              simpa using hc
          rcases hc2 with hc2 | hc2
          · rw [hc2] at he
            exact he h1
          · rw [hc2, cmd2_name] at hn
            exact hne hn.symm
        · rw [Videoclipper_fetchErr w r b e1 hm hb hu hd h1] at hc ⊢
          have hc2 : c = cmd1 (videoFile w.Now.Unix)
              (Replace b.TweetURL "x.com" "twitter.com" 1) := by simpa using hc
          subst hc2
          refine ⟨rfl, rfl, ?_, ?_⟩
          · intro d hd2
            have hd3 : d = cmd1 (videoFile w.Now.Unix)
              (Replace b.TweetURL "x.com" "twitter.com" 1) := by simpa using hd2
            rw [hd3]
            exact hne
          · intro link h
            cases h
      · rw [Videoclipper_mkdirErr w r b e hm hb hu hd] at hc
        simp at hc

/-- Witness of C2: a request whose fetch tool fails. -/
theorem fetch_error_stops_witness :
    (Videoclipper (sampleWorld sampleTime none toolFailed toolOk)
      (sampleRequest "https://x.com/a/status/5" "" "")).status = 500 ∧
    (Videoclipper (sampleWorld sampleTime none toolFailed toolOk)
      (sampleRequest "https://x.com/a/status/5" "" "")).invocations =
        [⟨"yt-dlp", ["-o", "download/1700000000.mp4", "https://twitter.com/a/status/5"]⟩] :=
  have h := fetch_error_stops (sampleWorld sampleTime none toolFailed toolOk)
    (sampleRequest "https://x.com/a/status/5" "" "")
    ⟨"yt-dlp", ["-o", "download/1700000000.mp4", "https://twitter.com/a/status/5"]⟩
    rfl (by decide) rfl (by decide)
  ⟨h.1, h.2.1⟩

/-- C3: whenever the trim tool is reached, it is the second external invocation and its
argument list is `-i videoFile`, then `-ss start` if `start` is non-empty, then `-to end`
if `end` is non-empty, then `-c copy clippedFile`; `start` and `end` are passed verbatim,
each as one argument, with no check of their order. -/
theorem trim_arguments (w : World) (r : Request) (b : RequestBody)
    (hm : r.Method = "POST") (hb : r.Body = Except.ok b)
    (hu : Replace b.TweetURL "x.com" "twitter.com" 1 ≠ "")
    (hd : w.MkdirAll "download" = none)
    (h1 : (w.CombinedOutput (cmd1 (videoFile w.Now.Unix)
      (Replace b.TweetURL "x.com" "twitter.com" 1))).err = none) :
    (Videoclipper w r).invocations =
      [cmd1 (videoFile w.Now.Unix) (Replace b.TweetURL "x.com" "twitter.com" 1),
       ⟨"ffmpeg",
        ["-i", videoFile w.Now.Unix] ++ (if b.Start ≠ "" then ["-ss", b.Start] else []) ++
          (if b.End ≠ "" then ["-to", b.End] else []) ++
          ["-c", "copy", clippedFile w.Now.Unix]⟩] := by
  have hc : cmd2 b.Start b.End (videoFile w.Now.Unix) (clippedFile w.Now.Unix) =
      ⟨"ffmpeg",
        ["-i", videoFile w.Now.Unix] ++ (if b.Start ≠ "" then ["-ss", b.Start] else []) ++
          (if b.End ≠ "" then ["-to", b.End] else []) ++
          ["-c", "copy", clippedFile w.Now.Unix]⟩ := by
    rw [← cmd2_args, ← cmd2_name b.Start b.End (videoFile w.Now.Unix) (clippedFile w.Now.Unix)]
  rcases h2 : (w.CombinedOutput (cmd2 b.Start b.End (videoFile w.Now.Unix)
      (clippedFile w.Now.Unix))).err with _ | e2
  · rw [Videoclipper_ok w r b hm hb hu hd h1 h2, hc]
  · rw [Videoclipper_trimErr w r b e2 hm hb hu hd h1 h2, hc]

/-- Witness of C3: an end offset that precedes the start offset is passed on as it is. -/
theorem trim_arguments_witness :
    (Videoclipper (sampleWorld sampleTime none toolOk toolOk)
      (sampleRequest "https://x.com/a/status/5" "00:00:10" "00:00:05")).invocations =
      [⟨"yt-dlp", ["-o", "download/1700000000.mp4", "https://twitter.com/a/status/5"]⟩,
       ⟨"ffmpeg", ["-i", "download/1700000000.mp4", "-ss", "00:00:10", "-to", "00:00:05",
        "-c", "copy", "download/clipped_1700000000.mp4"]⟩] :=
  trim_arguments (sampleWorld sampleTime none toolOk toolOk)
    (sampleRequest "https://x.com/a/status/5" "00:00:10" "00:00:05")
    ⟨"https://x.com/a/status/5", "00:00:10", "00:00:05"⟩ rfl rfl (by decide) rfl (by decide)

/-- C4: when the tweet URL is `p ++ "x.com" ++ s` and this is the first occurrence of
`x.com`, the URL given to the fetch tool is `p ++ "twitter.com" ++ s`, with `s` untouched;
a non-empty tweet URL that does not contain `x.com` is given unchanged; for instance
`https://x.com/u/status/1` becomes `https://twitter.com/u/status/1`. -/
theorem host_alias_rewrite (w : World) (r : Request) (b : RequestBody)
    (hm : r.Method = "POST") (hb : r.Body = Except.ok b)
    (hd : w.MkdirAll "download" = none) :
    (∀ p s : String, b.TweetURL = p ++ "x.com" ++ s →
      (∀ p' s' : String, b.TweetURL = p' ++ "x.com" ++ s' → p.length ≤ p'.length) →
      (Videoclipper w r).invocations.head? =
        some ⟨"yt-dlp", ["-o", videoFile w.Now.Unix, p ++ "twitter.com" ++ s]⟩) ∧
    ((¬ ∃ p s : String, b.TweetURL = p ++ "x.com" ++ s) → b.TweetURL ≠ "" →
      (Videoclipper w r).invocations.head? =
        some ⟨"yt-dlp", ["-o", videoFile w.Now.Unix, b.TweetURL]⟩) ∧
    Replace "https://x.com/u/status/1" "x.com" "twitter.com" 1 =
      "https://twitter.com/u/status/1" := by
  refine ⟨?_, ?_, by decide⟩
  · intro p s hps hfirst
    have hu : Replace b.TweetURL "x.com" "twitter.com" 1 ≠ "" := by
      intro h
      have h2 := (Replace_xcom_eq_empty _).1 h
      rw [hps] at h2
      have h3 := congrArg String.length h2
      simp [String.length_append] at h3
      exact absurd h3.1.2 (by decide)
    rw [Videoclipper_fetch_head w r b hm hb hu hd, hps,
      Replace_xcom_first p s (fun p' s' h => hfirst p' s' (hps.trans h))]
    rfl
  · intro habs hne
    have hu : Replace b.TweetURL "x.com" "twitter.com" 1 ≠ "" :=
      fun h => hne ((Replace_xcom_eq_empty _).1 h)
    rw [Videoclipper_fetch_head w r b hm hb hu hd, Replace_xcom_absent _ habs]
    rfl

/-- Witness of C4: in a URL that contains `x.com` twice only the first occurrence is
rewritten. -/
theorem host_alias_rewrite_witness :
    (Videoclipper (sampleWorld sampleTime none toolOk toolOk)
      (sampleRequest "x.com/x.com" "" "")).invocations.head? =
      some ⟨"yt-dlp", ["-o", "download/1700000000.mp4", "twitter.com/x.com"]⟩ :=
  (host_alias_rewrite (sampleWorld sampleTime none toolOk toolOk)
    (sampleRequest "x.com/x.com" "" "") ⟨"x.com/x.com", "", ""⟩ rfl rfl rfl).1
      "" "/x.com" (by decide) (fun _ _ _ => Nat.zero_le _)

/-- C5, as stated, fails: a tweet URL made of one space is empty after trimming
whitespace, yet the request is answered 200 and both external tools are run. -/
theorem whitespace_url_not_rejected :
    (sampleRequest " " "" "").Method = "POST" ∧
    (sampleRequest " " "" "").Body = Except.ok ⟨" ", "", ""⟩ ∧
    " ".data.all Char.isWhitespace = true ∧
    (Videoclipper (sampleWorld sampleTime none toolOk toolOk)
      (sampleRequest " " "" "")).status = 200 ∧
    (Videoclipper (sampleWorld sampleTime none toolOk toolOk)
      (sampleRequest " " "" "")).invocations =
      [⟨"yt-dlp", ["-o", "download/1700000000.mp4", " "]⟩,
       ⟨"ffmpeg", ["-i", "download/1700000000.mp4", "-c", "copy",
        "download/clipped_1700000000.mp4"]⟩] :=
  ⟨rfl, rfl, by decide, by decide, by decide⟩

/-- C5, amended: a `POST` request whose tweet URL is the empty string is answered 400 and
no external tool is run. -/
theorem empty_url_rejected (w : World) (r : Request) (b : RequestBody)
    (hm : r.Method = "POST") (hb : r.Body = Except.ok b) (hu : b.TweetURL = "") :
    (Videoclipper w r).status = 400 ∧
    (Videoclipper w r).body = Body.text "Missing required fields" ∧
    (Videoclipper w r).invocations = [] := by
  rw [Videoclipper_emptyUrl w r b hm hb ((Replace_xcom_eq_empty _).2 hu)]
  exact ⟨rfl, rfl, rfl⟩

/-- Witness of C5, amended: the request with an empty tweet URL, in a world where every
tool would succeed. -/
theorem empty_url_rejected_witness :
    (Videoclipper (sampleWorld sampleTime none toolOk toolOk)
      (sampleRequest "" "" "")).status = 400 ∧
    (Videoclipper (sampleWorld sampleTime none toolOk toolOk)
      (sampleRequest "" "" "")).body = Body.text "Missing required fields" ∧
    (Videoclipper (sampleWorld sampleTime none toolOk toolOk)
      (sampleRequest "" "" "")).invocations = [] :=
  empty_url_rejected (sampleWorld sampleTime none toolOk toolOk)
    (sampleRequest "" "" "") ⟨"", "", ""⟩ rfl rfl rfl

/-- C6, as stated, fails: a start offset that contains shell metacharacters and a line
feed is not rejected; the request is answered 200 and the string is an argument of the
trim tool. -/
theorem unsafe_start_not_rejected :
    (sampleRequest "https://x.com/a/status/5" "$(reboot);\n" "").Method = "POST" ∧
    (sampleRequest "https://x.com/a/status/5" "$(reboot);\n" "").Body =
      Except.ok ⟨"https://x.com/a/status/5", "$(reboot);\n", ""⟩ ∧
    '\n'.val < 32 ∧ '\n' ∈ "$(reboot);\n".data ∧ ';' ∈ "$(reboot);\n".data ∧
    (Videoclipper (sampleWorld sampleTime none toolOk toolOk)
      (sampleRequest "https://x.com/a/status/5" "$(reboot);\n" "")).status = 200 ∧
    (Videoclipper (sampleWorld sampleTime none toolOk toolOk)
      (sampleRequest "https://x.com/a/status/5" "$(reboot);\n" "")).invocations =
      [⟨"yt-dlp", ["-o", "download/1700000000.mp4", "https://twitter.com/a/status/5"]⟩,
       ⟨"ffmpeg", ["-i", "download/1700000000.mp4", "-ss", "$(reboot);\n", "-c", "copy",
        "download/clipped_1700000000.mp4"]⟩] :=
  ⟨rfl, rfl, by decide, by decide, by decide, by decide, by decide⟩

/-- C6, amended: the characters of `start` and `end` are not validated. For a `POST`
request whose body decodes, the answer is 400 exactly when the tweet URL is empty, whatever
`start` and `end` contain; and when the fetch succeeds, the trim tool is run with a
non-empty `start` passed verbatim as the single argument after `-ss` and a non-empty `end`
passed verbatim as the single argument after `-to`. -/
theorem start_end_not_validated (w : World) (r : Request) (b : RequestBody)
    (hm : r.Method = "POST") (hb : r.Body = Except.ok b) :
    ((Videoclipper w r).status = 400 ↔ b.TweetURL = "") ∧
    (b.TweetURL ≠ "" → w.MkdirAll "download" = none →
      (w.CombinedOutput (cmd1 (videoFile w.Now.Unix)
        (Replace b.TweetURL "x.com" "twitter.com" 1))).err = none →
      ∃ c, (Videoclipper w r).invocations =
          [cmd1 (videoFile w.Now.Unix) (Replace b.TweetURL "x.com" "twitter.com" 1), c] ∧
        c.name = "ffmpeg" ∧
        (b.Start ≠ "" → ["-ss", b.Start] <:+: c.args) ∧
        (b.End ≠ "" → ["-to", b.End] <:+: c.args)) := by
  constructor
  · by_cases hu : Replace b.TweetURL "x.com" "twitter.com" 1 = ""
    · have hu2 : b.TweetURL = "" := (Replace_xcom_eq_empty _).1 hu
      rw [Videoclipper_emptyUrl w r b hm hb hu]
      simp [StatusBadRequest, hu2]
    · have hu2 : b.TweetURL ≠ "" := fun h => hu ((Replace_xcom_eq_empty _).2 h)
      rcases hd : w.MkdirAll "download" with _ | e
      · rcases h1 : (w.CombinedOutput (cmd1 (videoFile w.Now.Unix)
          (Replace b.TweetURL "x.com" "twitter.com" 1))).err with _ | e1
        · rcases h2 : (w.CombinedOutput (cmd2 b.Start b.End (videoFile w.Now.Unix)
            (clippedFile w.Now.Unix))).err with _ | e2
          · rw [Videoclipper_ok w r b hm hb hu hd h1 h2]
            simp [StatusOK, hu2]
          · rw [Videoclipper_trimErr w r b e2 hm hb hu hd h1 h2]
            simp [StatusInternalServerError, hu2]
        · rw [Videoclipper_fetchErr w r b e1 hm hb hu hd h1]
          simp [StatusInternalServerError, hu2]
      · rw [Videoclipper_mkdirErr w r b e hm hb hu hd]
        simp [StatusInternalServerError, hu2]
  · intro hne hd h1
    have hu : Replace b.TweetURL "x.com" "twitter.com" 1 ≠ "" :=
      fun h => hne ((Replace_xcom_eq_empty _).1 h)
    refine ⟨cmd2 b.Start b.End (videoFile w.Now.Unix) (clippedFile w.Now.Unix), ?_,
      cmd2_name _ _ _ _, ?_, ?_⟩
    · rcases h2 : (w.CombinedOutput (cmd2 b.Start b.End (videoFile w.Now.Unix)
          (clippedFile w.Now.Unix))).err with _ | e2
      · rw [Videoclipper_ok w r b hm hb hu hd h1 h2]
      · rw [Videoclipper_trimErr w r b e2 hm hb hu hd h1 h2]
    · intro hs
      rw [cmd2_args, if_pos hs]
      exact ⟨["-i", videoFile w.Now.Unix],
        (if b.End ≠ "" then ["-to", b.End] else []) ++ ["-c", "copy", clippedFile w.Now.Unix],
        by simp⟩
    · intro he
      rw [cmd2_args, if_pos he]
      exact ⟨["-i", videoFile w.Now.Unix] ++ (if b.Start ≠ "" then ["-ss", b.Start] else []),
        ["-c", "copy", clippedFile w.Now.Unix], by simp⟩

/-- Witness of C6, amended: a request whose start offset holds shell metacharacters and
a line feed is not answered 400. -/
theorem start_end_not_validated_witness :
    (Videoclipper (sampleWorld sampleTime none toolOk toolOk)
      (sampleRequest "https://x.com/a/status/5" "$(reboot);\n" "")).status ≠ 400 :=
  fun h => absurd ((start_end_not_validated (sampleWorld sampleTime none toolOk toolOk)
    (sampleRequest "https://x.com/a/status/5" "$(reboot);\n" "")
    ⟨"https://x.com/a/status/5", "$(reboot);\n", ""⟩ rfl rfl).1.1 h) (by decide)

/-- C7: a `POST` request answered 200 carries the download link
`b ++ "/download/clipped_" ++ decimal n ++ ".mp4"`, where `n` is the job id and `b` is the
value of `BASE_URL` when it is non-empty and the fixed fallback otherwise; the link is `b`,
a slash, and the clipped file that was the output path, the last argument, of the trim
tool. -/
theorem download_link (w : World) (r : Request)
    (hm : r.Method = "POST") (hs : (Videoclipper w r).status = 200) :
    (Videoclipper w r).body =
      Body.downloadUrl
        ((if w.Getenv "BASE_URL" ≠ "" then w.Getenv "BASE_URL"
          else "http://109.199.102.132:9000") ++
          "/download/clipped_" ++ formatInt w.Now.Unix ++ ".mp4") ∧
    ∃ c1 c2 out, (Videoclipper w r).invocations = [c1, c2] ∧ c2.name = "ffmpeg" ∧
      c2.args.getLast? = some out ∧
      out = "download/clipped_" ++ formatInt w.Now.Unix ++ ".mp4" ∧
      (Videoclipper w r).body =
        Body.downloadUrl
          ((if w.Getenv "BASE_URL" ≠ "" then w.Getenv "BASE_URL"
            else "http://109.199.102.132:9000") ++ "/" ++ out) := by
  have hbase : (if w.Getenv "BASE_URL" ≠ "" then w.Getenv "BASE_URL"
      else "http://109.199.102.132:9000") = baseURL w := by
    unfold baseURL
    by_cases h : w.Getenv "BASE_URL" = "" <;> simp [h]
  rw [hbase]
  rcases hb : r.Body with e | b
  · rw [Videoclipper_decodeErr w r e hm hb] at hs
    simp [StatusBadRequest] at hs
  · by_cases hu : Replace b.TweetURL "x.com" "twitter.com" 1 = ""
    · rw [Videoclipper_emptyUrl w r b hm hb hu] at hs
      simp [StatusBadRequest] at hs
    · rcases hd : w.MkdirAll "download" with _ | e
      · rcases h1 : (w.CombinedOutput (cmd1 (videoFile w.Now.Unix)
          (Replace b.TweetURL "x.com" "twitter.com" 1))).err with _ | e1
        · rcases h2 : (w.CombinedOutput (cmd2 b.Start b.End (videoFile w.Now.Unix)
            (clippedFile w.Now.Unix))).err with _ | e2
          · rw [Videoclipper_ok w r b hm hb hu hd h1 h2]
            refine ⟨?_, _, _, clippedFile w.Now.Unix, rfl, cmd2_name _ _ _ _, ?_, rfl, rfl⟩
            · show Body.downloadUrl _ = Body.downloadUrl _
              congr 1
              unfold clippedFile
              simp only [String.append_assoc]
              rfl
            · exact cmd2_getLast _ _ _ _
          · rw [Videoclipper_trimErr w r b e2 hm hb hu hd h1 h2] at hs
            simp [StatusInternalServerError] at hs
        · rw [Videoclipper_fetchErr w r b e1 hm hb hu hd h1] at hs
          simp [StatusInternalServerError] at hs
      · rw [Videoclipper_mkdirErr w r b e hm hb hu hd] at hs
        simp [StatusInternalServerError] at hs

/-- Witness of C7: with `BASE_URL` unset the link starts with the fallback. -/
theorem download_link_witness :
    (Videoclipper (sampleWorld sampleTime none toolOk toolOk)
      (sampleRequest "https://x.com/a/status/5" "00:00:05" "00:00:10")).body =
      Body.downloadUrl "http://109.199.102.132:9000/download/clipped_1700000000.mp4" :=
  (download_link (sampleWorld sampleTime none toolOk toolOk)
    (sampleRequest "https://x.com/a/status/5" "00:00:05" "00:00:10") rfl (by decide)).1

/-- C8, evaluated on the code: two invocations whose clock readings are strictly ordered
but fall in the same second get the same job id, the same download path and the same
clipped path, and run the same two commands on the same files. -/
theorem same_second_jobs_collide :
    Time.lt sampleTime sampleLater ∧ Time.le sampleTime sampleLater ∧
    sampleTime.Unix = sampleLater.Unix ∧
    videoFile sampleTime.Unix = videoFile sampleLater.Unix ∧
    clippedFile sampleTime.Unix = clippedFile sampleLater.Unix ∧
    (Videoclipper (sampleWorld sampleTime none toolOk toolOk)
      (sampleRequest "https://x.com/a/status/5" "" "")).invocations =
      [⟨"yt-dlp", ["-o", "download/1700000000.mp4", "https://twitter.com/a/status/5"]⟩,
       ⟨"ffmpeg", ["-i", "download/1700000000.mp4", "-c", "copy",
        "download/clipped_1700000000.mp4"]⟩] ∧
    (Videoclipper (sampleWorld sampleLater none toolOk toolOk)
      (sampleRequest "https://x.com/a/status/5" "" "")).invocations =
      [⟨"yt-dlp", ["-o", "download/1700000000.mp4", "https://twitter.com/a/status/5"]⟩,
       ⟨"ffmpeg", ["-i", "download/1700000000.mp4", "-c", "copy",
        "download/clipped_1700000000.mp4"]⟩] :=
  ⟨by decide, by decide, rfl, rfl, rfl, by decide, by decide⟩

/-- C9: two runs on the same request, environment, clock and directory outcome, in which
every command has the same success or failure but possibly different output and error
text, give the same status and the same body; and when a tool was run and the answer is
not 200, the body is the fixed message `Error downloading the video`. -/
theorem response_ignores_tool_output (w1 w2 : World) (r : Request)
    (hg : w1.Getenv = w2.Getenv) (hn : w1.Now = w2.Now) (hd : w1.MkdirAll = w2.MkdirAll)
    (ho : ∀ c, (w1.CombinedOutput c).err = none ↔ (w2.CombinedOutput c).err = none) :
    (Videoclipper w1 r).status = (Videoclipper w2 r).status ∧
    (Videoclipper w1 r).body = (Videoclipper w2 r).body ∧
    ((Videoclipper w1 r).invocations ≠ [] → (Videoclipper w1 r).status ≠ 200 →
      (Videoclipper w1 r).body = Body.text "Error downloading the video") := by
  by_cases hopt : r.Method = "OPTIONS"
  · simp [Videoclipper, hopt]
  by_cases hm : r.Method = "POST"
  swap
  · simp [Videoclipper, hopt, hm]
  have hbase : baseURL w1 = baseURL w2 := by unfold baseURL; rw [hg]
  rcases hb : r.Body with e | b
  · rw [Videoclipper_decodeErr w1 r e hm hb, Videoclipper_decodeErr w2 r e hm hb]
    simp
  · by_cases hu : Replace b.TweetURL "x.com" "twitter.com" 1 = ""
    · rw [Videoclipper_emptyUrl w1 r b hm hb hu, Videoclipper_emptyUrl w2 r b hm hb hu]
      simp
    · rcases hd1 : w1.MkdirAll "download" with _ | e
      · have hd2 : w2.MkdirAll "download" = none := by rw [← hd]; exact hd1
        rcases h1 : (w1.CombinedOutput (cmd1 (videoFile w1.Now.Unix)
          (Replace b.TweetURL "x.com" "twitter.com" 1))).err with _ | e1
        · have h1b : (w2.CombinedOutput (cmd1 (videoFile w2.Now.Unix)
              (Replace b.TweetURL "x.com" "twitter.com" 1))).err = none := by
            rw [← hn]; exact (ho _).1 h1
          rcases h2 : (w1.CombinedOutput (cmd2 b.Start b.End (videoFile w1.Now.Unix)
            (clippedFile w1.Now.Unix))).err with _ | e2
          · have h2b : (w2.CombinedOutput (cmd2 b.Start b.End (videoFile w2.Now.Unix)
                (clippedFile w2.Now.Unix))).err = none := by
              rw [← hn]; exact (ho _).1 h2
            rw [Videoclipper_ok w1 r b hm hb hu hd1 h1 h2,
              Videoclipper_ok w2 r b hm hb hu hd2 h1b h2b, hbase, hn]
            simp [StatusOK]
          · have h2n : (w2.CombinedOutput (cmd2 b.Start b.End (videoFile w2.Now.Unix)
                (clippedFile w2.Now.Unix))).err ≠ none := by
              rw [← hn]
              intro h
              rw [(ho _).2 h] at h2
              cases h2
            obtain ⟨e2b, h2b⟩ := Option.ne_none_iff_exists'.1 h2n
            rw [Videoclipper_trimErr w1 r b e2 hm hb hu hd1 h1 h2,
              Videoclipper_trimErr w2 r b e2b hm hb hu hd2 h1b h2b]
            simp
        · have h1n : (w2.CombinedOutput (cmd1 (videoFile w2.Now.Unix)
              (Replace b.TweetURL "x.com" "twitter.com" 1))).err ≠ none := by
            rw [← hn]
            intro h
            rw [(ho _).2 h] at h1
            cases h1
          obtain ⟨e1b, h1b⟩ := Option.ne_none_iff_exists'.1 h1n
          rw [Videoclipper_fetchErr w1 r b e1 hm hb hu hd1 h1,
            Videoclipper_fetchErr w2 r b e1b hm hb hu hd2 h1b]
          simp
      · have hd2 : w2.MkdirAll "download" = some e := by rw [← hd]; exact hd1
        rw [Videoclipper_mkdirErr w1 r b e hm hb hu hd1,
          Videoclipper_mkdirErr w2 r b e hm hb hu hd2]
        simp

/-- Witness of C9: two failing runs of the fetch tool with different output give the same
body, although the diagnostic lines differ. -/
theorem response_ignores_tool_output_witness :
    (Videoclipper (sampleWorld sampleTime none toolFailed toolOk)
      (sampleRequest "https://x.com/a/status/5" "" "")).body =
    (Videoclipper (sampleWorld sampleTime none toolFailedVerbose toolOk)
      (sampleRequest "https://x.com/a/status/5" "" "")).body ∧
    (Videoclipper (sampleWorld sampleTime none toolFailed toolOk)
      (sampleRequest "https://x.com/a/status/5" "" "")).log ≠
    (Videoclipper (sampleWorld sampleTime none toolFailedVerbose toolOk)
      (sampleRequest "https://x.com/a/status/5" "" "")).log :=
  ⟨(response_ignores_tool_output (sampleWorld sampleTime none toolFailed toolOk)
      (sampleWorld sampleTime none toolFailedVerbose toolOk)
      (sampleRequest "https://x.com/a/status/5" "" "") rfl rfl rfl
      (fun c => by
        unfold sampleWorld
        by_cases h : c.name = "yt-dlp" <;> simp [h, toolFailed, toolFailedVerbose])).2.1,
   by decide⟩

set_option maxRecDepth 4000 in
/-- C10, as stated, fails when the base URL has a path of its own. With
`BASE_URL=https://example.org/clipper` the path of the returned link is
`/clipper/download/clipped_1700000000.mp4` and the `/download/` route maps it to
`download/clipper/download/clipped_1700000000.mp4`, not to the file given to the trim
tool; with `BASE_URL=https://clips.example.org/` the path is
`//download/clipped_1700000000.mp4`, mapped to `download//download/clipped_1700000000.mp4`. -/
theorem link_path_not_resolved :
    ((sampleRequest "https://x.com/a/status/5" "" "").Method = "POST" ∧
     (Videoclipper (sampleWorldWithBase "https://example.org/clipper")
        (sampleRequest "https://x.com/a/status/5" "" "")).status = 200 ∧
     (Videoclipper (sampleWorldWithBase "https://example.org/clipper")
        (sampleRequest "https://x.com/a/status/5" "" "")).body =
        Body.downloadUrl "https://example.org/clipper/download/clipped_1700000000.mp4" ∧
     (Videoclipper (sampleWorldWithBase "https://example.org/clipper")
        (sampleRequest "https://x.com/a/status/5" "" "")).invocations =
        [⟨"yt-dlp", ["-o", "download/1700000000.mp4", "https://twitter.com/a/status/5"]⟩,
         ⟨"ffmpeg", ["-i", "download/1700000000.mp4", "-c", "copy",
          "download/clipped_1700000000.mp4"]⟩] ∧
     urlPath "https://example.org/clipper/download/clipped_1700000000.mp4" =
        "/clipper/download/clipped_1700000000.mp4" ∧
     downloadHandler "/clipper/download/clipped_1700000000.mp4" =
        some ⟨"download/clipper/download/clipped_1700000000.mp4",
          "attachment; filename=clipped_1700000000.mp4"⟩ ∧
     (downloadHandler "/clipper/download/clipped_1700000000.mp4").map Download.filePath ≠
        some "download/clipped_1700000000.mp4") ∧
    ((Videoclipper (sampleWorldWithBase "https://clips.example.org/")
        (sampleRequest "https://x.com/a/status/5" "" "")).status = 200 ∧
     (Videoclipper (sampleWorldWithBase "https://clips.example.org/")
        (sampleRequest "https://x.com/a/status/5" "" "")).body =
        Body.downloadUrl "https://clips.example.org//download/clipped_1700000000.mp4" ∧
     (Videoclipper (sampleWorldWithBase "https://clips.example.org/")
        (sampleRequest "https://x.com/a/status/5" "" "")).invocations =
        [⟨"yt-dlp", ["-o", "download/1700000000.mp4", "https://twitter.com/a/status/5"]⟩,
         ⟨"ffmpeg", ["-i", "download/1700000000.mp4", "-c", "copy",
          "download/clipped_1700000000.mp4"]⟩] ∧
     urlPath "https://clips.example.org//download/clipped_1700000000.mp4" =
        "//download/clipped_1700000000.mp4" ∧
     downloadHandler "//download/clipped_1700000000.mp4" =
        some ⟨"download//download/clipped_1700000000.mp4",
          "attachment; filename=clipped_1700000000.mp4"⟩) :=
  ⟨⟨rfl, by decide, by decide, by decide, by decide, by decide, by decide⟩,
   ⟨by decide, by decide, by decide, by decide, by decide⟩⟩

/-- C10, amended: when the base URL is `scheme://authority` with no path, query or
fragment, as the fallback is, every `POST` request answered 200 returns a link whose path
is `/download/clipped_<n>.mp4` for the job id `n`; the `/download/` route maps that path
to `download/clipped_<n>.mp4`, which is the output path, the last argument, that the
handler gave to the trim tool, and sets `Content-Disposition` to
`attachment; filename=clipped_<n>.mp4`. -/
theorem link_resolves_to_clipped_file (w : World) (r : Request) (scheme authority : String)
    (hm : r.Method = "POST") (hs : (Videoclipper w r).status = 200)
    (hb : baseURL w = scheme ++ "://" ++ authority)
    (hsch : ∀ c ∈ scheme.data, c ≠ ':' ∧ c ≠ '/' ∧ c ≠ '?' ∧ c ≠ '#')
    (hauth : ∀ c ∈ authority.data, c ≠ '/' ∧ c ≠ '?' ∧ c ≠ '#') :
    ∃ link c1 c2 out,
      (Videoclipper w r).body = Body.downloadUrl link ∧
      (Videoclipper w r).invocations = [c1, c2] ∧
      c2.name = "ffmpeg" ∧ c2.args.getLast? = some out ∧
      out = "download/clipped_" ++ formatInt w.Now.Unix ++ ".mp4" ∧
      urlPath link = "/download/clipped_" ++ formatInt w.Now.Unix ++ ".mp4" ∧
      downloadHandler (urlPath link) =
        some ⟨out, "attachment; filename=clipped_" ++ formatInt w.Now.Unix ++ ".mp4"⟩ := by
  obtain ⟨b, _, hbody, hinv⟩ := Videoclipper_of_status_ok w r hm hs
  have hpath : urlPath (baseURL w ++ "/" ++ clippedFile w.Now.Unix) =
      "/" ++ clippedFile w.Now.Unix := by
    rw [hb]
    exact urlPath_link scheme authority _ hsch hauth
  have hlit : "/" ++ clippedFile w.Now.Unix =
      "/download/clipped_" ++ formatInt w.Now.Unix ++ ".mp4" := by
    unfold clippedFile
    simp only [String.append_assoc]
    rfl
  refine ⟨_, _, _, clippedFile w.Now.Unix, hbody, hinv, cmd2_name _ _ _ _,
    cmd2_getLast _ _ _ _, rfl, ?_, ?_⟩
  · rw [hpath, hlit]
  · rw [hpath]
    exact downloadHandler_clipped _

/-- Witness of C10, amended: with `BASE_URL` unset the base URL is the fallback
`http://109.199.102.132:9000`, and the link of a successful request resolves to the
clipped file. -/
theorem link_resolves_to_clipped_file_witness :
    ∃ link c1 c2 out,
      (Videoclipper (sampleWorld sampleTime none toolOk toolOk)
        (sampleRequest "https://x.com/a/status/5" "00:00:05" "00:00:10")).body =
        Body.downloadUrl link ∧
      (Videoclipper (sampleWorld sampleTime none toolOk toolOk)
        (sampleRequest "https://x.com/a/status/5" "00:00:05" "00:00:10")).invocations =
        [c1, c2] ∧
      c2.name = "ffmpeg" ∧ c2.args.getLast? = some out ∧
      out = "download/clipped_" ++ formatInt (1700000000 : Int) ++ ".mp4" ∧
      urlPath link = "/download/clipped_" ++ formatInt (1700000000 : Int) ++ ".mp4" ∧
      downloadHandler (urlPath link) =
        some ⟨out, "attachment; filename=clipped_" ++ formatInt (1700000000 : Int) ++ ".mp4"⟩ :=
  link_resolves_to_clipped_file (sampleWorld sampleTime none toolOk toolOk)
    (sampleRequest "https://x.com/a/status/5" "00:00:05" "00:00:10")
    "http" "109.199.102.132:9000" rfl (by decide) (by decide) (by decide) (by decide)

end DownloadX
